import Mathlib

/-!
Verification development for the variogram-estimation core
(`vargrest/auxiliary/curvefit.py`).

Conventions of the shallow embedding:
* Python/numpy floats are modelled by exact rationals. A float `NaN` is
  modelled by `none : Option Rat`; a real float value `v` by `some v`.
  An IEEE division whose denominator is `0` produces a non-real float
  (`NaN` when the numerator is also `0`, an infinity otherwise); both are
  modelled by `none`.  In every theorem below that asserts a `none`
  outcome the numerator at that point is also `0`, so `none` is exactly
  the float `NaN`.
* The real-valued direction computation, which involves `np.pi`, is
  modelled over the reals with `Real.pi` substituted for `np.pi`.
* 3D numpy arrays of shape `(nx, ny, nz)` are modelled as functions
  `Fin nx × Fin ny × Fin nz → Option Rat`; `ravelCells` enumerates the
  cells in C (row-major) order, matching `np.ravel`.
* External capabilities are abstracted as parameters: `scipy.optimize.curve_fit`
  as a `solver` function, `np.exp` as `expFn`, and the user-supplied
  parametric field `func` as a function of coordinates and parameters.
-/

namespace Vargrest

/-- Cells of a 3D grid of shape `(nx, ny, nz)`. -/
abbrev Cell (nx ny nz : ℕ) := Fin nx × Fin ny × Fin nz

/-- All cells of the grid in C (row-major) order, the order produced by
`np.meshgrid(..., indexing='ij')` followed by `.ravel()`. -/
def ravelCells (nx ny nz : ℕ) : List (Cell nx ny nz) :=
  (List.finRange nx).flatMap fun i =>
    (List.finRange ny).flatMap fun j =>
      (List.finRange nz).map fun k => (i, j, k)

/-- Embeds `np.linspace(a, b, n)` at index `i`: `n` evenly spaced points from
`a` to `b`, endpoints included (numpy's default `endpoint=True`).  For
`n = 1` numpy returns the single point `a`. -/
def linspace (a b : ℚ) (n : ℕ) (i : Fin n) : ℚ :=
  if n ≤ 1 then a else a + (i.val : ℚ) * ((b - a) / ((n : ℚ) - 1))

/-- Embeds the coordinate grid of `fit_3d_field` (curvefit.py lines 59-67):
`xmin = -int(nx / 2)`, `xmax = -xmin`, `xv = np.linspace(xmin, xmax, nx)`.
Python's `int(nx / 2)` is `nx / 2` rounded toward zero, i.e. `⌊nx / 2⌋`
for the nonnegative `nx` here. -/
def coordAxis (n : ℕ) (i : Fin n) : ℚ :=
  linspace (-(↑(n / 2) : ℚ)) (↑(n / 2) : ℚ) n i

/-- Modelled from the spec: the coordinate the spec (and the source
docstring, read with integer division) assigns to index `i` on an axis of
length `n`, namely `i - ⌊n / 2⌋`. -/
def spec_coordinate (n : ℕ) (i : Fin n) : ℚ :=
  (i.val : ℚ) - (↑(n / 2) : ℚ)

/-- The centered coordinates of a cell, `(xv[i], yv[j], zv[k])`. -/
def cellCoord {nx ny nz : ℕ} (c : Cell nx ny nz) : ℚ × ℚ × ℚ :=
  (coordAxis nx c.1, coordAxis ny c.2.1, coordAxis nz c.2.2)

/-- Embeds `_transform_array(x, n)` (curvefit.py lines 211-214):
`x_below = 2**(n-1) * x**n`, `x_above = 1 - 2**(n-1) * (1-x)**n`,
`np.where(x < 0.5, x_below, x_above)`.  The Python exponent `n - 1` is an
integer subtraction, hence the `ℤ`-valued exponent here. -/
def transform_array (x : ℚ) (n : ℕ) : ℚ :=
  if x < 0.5 then 2 ^ ((n : ℤ) - 1) * x ^ n
  else 1 - 2 ^ ((n : ℤ) - 1) * (1 - x) ^ n

/-- Embeds `_aggregate_contributions(top, sub)` (curvefit.py lines 149-150):
`1.0 - (top * 0.75 + min(sub, 0.25))`. -/
def aggregate_contributions (top sub : ℚ) : ℚ :=
  1.0 - (top * 0.75 + min sub 0.25)

/-- NaN-propagating lift of `_aggregate_contributions` to float scalars, as
the float arithmetic behaves when a contribution is NaN: `top * 0.75` is NaN
when `top` is, and Python's `min(sub, 0.25)` returns its first argument
`sub` when `sub` is NaN (every comparison with NaN is false), so the result
is NaN as soon as either contribution is. -/
def aggregateOpt (top sub : Option ℚ) : Option ℚ :=
  match top, sub with
  | some t, some s => some (aggregate_contributions t s)
  | _, _ => none

/-- Embeds the per-cell collapse of the two middle horizontal slices in
`find_dominant_direction` for even `nz` (curvefit.py lines 231-235):
`v01 = np.where(np.isnan(v0), 0.0, v0) + np.where(np.isnan(v1), 0.0, v1)`;
`w = ~np.isnan(v0) + ~np.isnan(v1)` — numpy addition of two boolean arrays
is logical OR, so `w` is boolean; `g = np.where(w > 0, w * v01, np.nan)` —
in the product the boolean `w` casts to `1.0`/`0.0`. -/
def collapse_even_cell (v0 v1 : Option ℚ) : Option ℚ :=
  let v01 : ℚ := v0.getD 0 + v1.getD 0
  let w : Bool := v0.isSome || v1.isSome
  if w then some ((if w then (1 : ℚ) else 0) * v01) else none

/-- Modelled from the spec: the per-cell weighted average of the two middle
slices using only non-missing contributions — missing in both stays
missing, missing in one takes the other at full weight, present in both
averages the two. -/
def collapse_even_cell_avg (v0 v1 : Option ℚ) : Option ℚ :=
  match v0, v1 with
  | none, none => none
  | some a, none => some a
  | none, some b => some b
  | some a, some b => some ((a + b) / 2)

/-- Comparison of a possibly-NaN float with a float bound, as numpy
evaluates an elementwise `x < b`: every comparison involving NaN is
false. -/
def ltOpt (x : Option ℚ) (b : ℚ) : Bool :=
  match x with
  | none => false
  | some v => decide (v < b)

/-- IEEE-style float division of real operands.  When the denominator is
`0` the float result is non-real — NaN for `0.0 / 0.0` and an infinity
otherwise — modelled uniformly as `none`.  Every theorem below that
relies on a `none` result of `fdiv` is at a point where the numerator is
also `0`, so there `none` is exactly the float NaN. -/
def fdiv (x y : ℚ) : Option ℚ :=
  if y = 0 then none else some (x / y)

/-- Embeds `np.median` on a 1-D array: sort ascending; for odd length take
the middle element, for even length average the two middle elements; the
median of an empty array is NaN (`none`).  The `getD` accesses are always
in range when the list is nonempty. -/
def median (l : List ℚ) : Option ℚ :=
  if (List.insertionSort (· ≤ ·) l).length = 0 then none
  else if (List.insertionSort (· ≤ ·) l).length % 2 = 1 then
    some ((List.insertionSort (· ≤ ·) l).getD
      ((List.insertionSort (· ≤ ·) l).length / 2) 0)
  else
    some (((List.insertionSort (· ≤ ·) l).getD
        ((List.insertionSort (· ≤ ·) l).length / 2 - 1) 0 +
      (List.insertionSort (· ≤ ·) l).getD
        ((List.insertionSort (· ≤ ·) l).length / 2) 0) / 2)

/-- Embeds the per-axis part of the `center` mask of `_find_contrib1_cells`
(curvefit.py lines 187-190): with `p = n // 4`, the Python slice
`center[p : -p]` selects indices `p ≤ i < n - p` when `p > 0`, and is
empty when `p = 0` (for then `-p` is `0` and `a[0:0]` selects nothing). -/
def centerAxis (n : ℕ) (i : ℕ) : Bool :=
  decide (0 < n / 4) && decide (n / 4 ≤ i) && decide (i < n - n / 4)

/-- Embeds `_find_contrib1_cells(empirical_3d, parametric_3d, sigma_estimate)`
with its default `pc = 0.5` (curvefit.py lines 186-196): non-missing,
inside the central half-extent sub-cube, and with both the empirical and
the parametric value below `0.5 * sigma_estimate` (comparisons with NaN
are false, handled by `ltOpt`). -/
def find_contrib1_cells {nx ny nz : ℕ} (emp par : Cell nx ny nz → Option ℚ)
    (σ : ℚ) (c : Cell nx ny nz) : Bool :=
  (emp c).isSome &&
    (centerAxis nx c.1.val && centerAxis ny c.2.1.val && centerAxis nz c.2.2.val) &&
    ltOpt (emp c) (0.5 * σ) && ltOpt (par c) (0.5 * σ)

/-- Embeds `_find_contrib2_cells(empirical)` (curvefit.py lines 199-200):
every non-missing cell. -/
def find_contrib2_cells {nx ny nz : ℕ} (emp : Cell nx ny nz → Option ℚ)
    (c : Cell nx ny nz) : Bool :=
  (emp c).isSome

/-- The boolean mask `ix[:, my, mz]` of `_calculate_quality_measure`
(curvefit.py lines 168-169) with `my = ny // 2`, `mz = nz // 2`. -/
def lineX {nx ny nz : ℕ} (c : Cell nx ny nz) : Bool :=
  decide (c.2.1.val = ny / 2) && decide (c.2.2.val = nz / 2)

/-- The boolean mask `iy[mx, :, mz]` of `_calculate_quality_measure`
(curvefit.py lines 173-174). -/
def lineY {nx ny nz : ℕ} (c : Cell nx ny nz) : Bool :=
  decide (c.1.val = nx / 2) && decide (c.2.2.val = nz / 2)

/-- The boolean mask `iz[mx, my, :]` of `_calculate_quality_measure`
(curvefit.py lines 178-179). -/
def lineZ {nx ny nz : ℕ} (c : Cell nx ny nz) : Bool :=
  decide (c.1.val = nx / 2) && decide (c.2.1.val = ny / 2)

/-- Embeds `_contribution_1(empirical, parametric, sigma_estimate)`
(curvefit.py lines 153-156) applied to the values at a given cell list:
`abs(diff).sum() / abs(worst_case).sum()`.  The cells passed in always
carry non-missing empirical and parametric values (the masks require it),
so the `getD 0` defaults never fire. -/
def contribution_1 {nx ny nz : ℕ} (emp par : Cell nx ny nz → Option ℚ)
    (σ : ℚ) (cells : List (Cell nx ny nz)) : Option ℚ :=
  fdiv ((cells.map fun c => |(emp c).getD 0 - (par c).getD 0|).sum)
    ((cells.map fun c => |(emp c).getD 0 - σ|).sum)

/-- Embeds `_contribution_2(empirical, parametric, sigma_estimate)`
(curvefit.py lines 159-160): `np.median(np.abs(empirical - parametric)) /
sigma_estimate`.  A NaN median (empty cell list) propagates through the
division. -/
def contribution_2 {nx ny nz : ℕ} (emp par : Cell nx ny nz → Option ℚ)
    (σ : ℚ) (cells : List (Cell nx ny nz)) : Option ℚ :=
  match median (cells.map fun c => |(emp c).getD 0 - (par c).getD 0|) with
  | none => none
  | some m => fdiv m σ

/-- The four-component fit-quality record, with `none` modelling a NaN
field. -/
structure QualityMeasure where
  full : Option ℚ
  x_slice : Option ℚ
  y_slice : Option ℚ
  z_slice : Option ℚ
deriving DecidableEq

/-- Embeds `QualityMeasure.nan()` (curvefit.py lines 17-19). -/
def QualityMeasure.nan : QualityMeasure := ⟨none, none, none, none⟩

/-- Embeds `_calculate_quality_measure(empirical_3d, parametric_3d,
sigma_estimate, index, measure)` (curvefit.py lines 163-183): the measure
applied to the cells selected by `index` on the full cube and on the three
center lines (`mx, my, mz = shape // 2`), each intersected (`&=`) with
`index`. -/
def calculate_quality_measure {nx ny nz : ℕ} (emp par : Cell nx ny nz → Option ℚ)
    (σ : ℚ) (index : Cell nx ny nz → Bool)
    (measure : (Cell nx ny nz → Option ℚ) → (Cell nx ny nz → Option ℚ) → ℚ →
      List (Cell nx ny nz) → Option ℚ) : QualityMeasure where
  full := measure emp par σ ((ravelCells nx ny nz).filter index)
  x_slice := measure emp par σ ((ravelCells nx ny nz).filter fun c => lineX c && index c)
  y_slice := measure emp par σ ((ravelCells nx ny nz).filter fun c => lineY c && index c)
  z_slice := measure emp par σ ((ravelCells nx ny nz).filter fun c => lineZ c && index c)

/-- Embeds `_calculate_quality_contribution_1` (curvefit.py lines 135-139). -/
def calculate_quality_contribution_1 {nx ny nz : ℕ}
    (emp par : Cell nx ny nz → Option ℚ) (σ : ℚ) : QualityMeasure :=
  calculate_quality_measure emp par σ (find_contrib1_cells emp par σ) contribution_1

/-- Embeds `_calculate_quality_contribution_2` (curvefit.py lines 142-146). -/
def calculate_quality_contribution_2 {nx ny nz : ℕ}
    (emp par : Cell nx ny nz → Option ℚ) (σ : ℚ) : QualityMeasure :=
  calculate_quality_measure emp par σ (find_contrib2_cells emp) contribution_2

/-- The tail of `_calculate_quality_1` (curvefit.py lines 124-132): both
contributions and their per-scope aggregation, given the scattered
empirical and parametric 3D arrays and the sigma estimate. -/
def quality_from_sigma {nx ny nz : ℕ} (emp par : Cell nx ny nz → Option ℚ)
    (σ : ℚ) : QualityMeasure :=
  let top := calculate_quality_contribution_1 emp par σ
  let sub := calculate_quality_contribution_2 emp par σ
  { full := aggregateOpt top.full sub.full
    x_slice := aggregateOpt top.x_slice sub.x_slice
    y_slice := aggregateOpt top.y_slice sub.y_slice
    z_slice := aggregateOpt top.z_slice sub.z_slice }

/-- Embeds `_calculate_quality_1(func, indep_data, dep_data, not_nan, array)`
(curvefit.py lines 108-132).  `dep_data_3d` is the original grid `emp`;
`par_est_3d` scatters the model values through the same not-missing mask,
hence `(emp c).map fun _ => model c`; `sigma_est = np.median(dep_data)`
is the median of the non-missing values in ravel order.  When every cell
is missing that median is NaN: then every comparison in the contribution-1
mask is false, every restricted cell set is empty, and every float
operation downstream propagates NaN, so the result is the all-NaN
`QualityMeasure` (the `none` branch). -/
def calculate_quality_1 {nx ny nz : ℕ} (emp : Cell nx ny nz → Option ℚ)
    (model : Cell nx ny nz → ℚ) : QualityMeasure :=
  match median ((ravelCells nx ny nz).filterMap emp) with
  | none => QualityMeasure.nan
  | some σ => quality_from_sigma emp (fun c => (emp c).map fun _ => model c) σ

/-- Embeds `fit_3d_field(func, jac, array, resolution, counts, par_guess,
bounds, sigma_wt)` (curvefit.py lines 22-105).
* `expFn` abstracts the float `np.exp`.
* `solver` abstracts `scipy.optimize.curve_fit` (closed over `func` and
  `jac`); it receives exactly the data the source passes: the filtered
  coordinates, the filtered values, the optional per-sample sigma vector
  (`none` entries model the `+inf` produced for zero weights by
  `np.divide(..., out=inf, where=wts != 0)`), the initial guess and the
  bounds, and returns the optimal parameter vector `popt`.
* The source unpacks `resolution` into `dx, dy, dz` and filters `counts`
  alongside the values, but neither is read anywhere afterwards on the
  fit/quality path; the dead bindings are omitted here, which is what
  makes that independence visible.
* If every observation is missing, the function short-circuits (lines
  76-78) with a NaN parameter vector shaped like the guess and the all-NaN
  quality, and the solver is never consulted. -/
def fit_3d_field {nx ny nz : ℕ}
    (expFn : ℚ → ℚ)
    (solver : List (ℚ × ℚ × ℚ) → List ℚ → Option (List (Option ℚ)) →
      List ℚ → List ℚ × List ℚ → List ℚ)
    (func : ℚ × ℚ × ℚ → List ℚ → ℚ)
    (array : Cell nx ny nz → Option ℚ)
    (resolution : ℚ × ℚ × ℚ)
    (counts : Cell nx ny nz → ℚ)
    (par_guess : List ℚ)
    (bounds : List ℚ × List ℚ)
    (sigma_wt : Option ℚ) :
    List (Option ℚ) × QualityMeasure :=
  if ((ravelCells nx ny nz).map array).all Option.isNone then
    (par_guess.map fun _ => none, QualityMeasure.nan)
  else
    let sampled := (ravelCells nx ny nz).filter fun c => (array c).isSome
    let indep_data := sampled.map cellCoord
    let dep_data := sampled.map fun c => (array c).getD 0
    let sig : Option (List (Option ℚ)) :=
      sigma_wt.map fun s =>
        sampled.map fun c =>
          let p := cellCoord c
          let wts := transform_array
            (expFn (-(1 / (2 * s ^ 2)) * (p.1 ^ 2 + p.2.1 ^ 2 + p.2.2 ^ 2))) 2
          if wts = 0 then none else some (1 / wts)
    let popt := solver indep_data dep_data sig par_guess bounds
    (popt.map some, calculate_quality_1 array fun c => func (cellCoord c) popt)

/-- A concrete 1 by 1 by 1 observation grid whose single cell holds the
value `1`. -/
def oneCellGrid : Cell 1 1 1 → Option ℚ := fun _ => some 1

/-- A concrete 1 by 1 by 2 observation grid with both cells holding the
value `1`. -/
def lineGrid : Cell 1 1 2 → Option ℚ := fun _ => some 1

/-- The four cells of a 4 by 4 by 4 grid singled out by the concrete
quality examples: one interior cell on each of the three center lines plus
the center cell itself, all inside the central half-extent region. -/
def lowCells : List (Cell 4 4 4) := [(1, 2, 2), (2, 1, 2), (2, 2, 1), (2, 2, 2)]

/-- A concrete fully observed 4 by 4 by 4 grid: value `0` on the four
`lowCells`, value `1` elsewhere.  Its sigma estimate (median) is `1`, and
the `lowCells` qualify for contribution 1 in every scope. -/
def plateauGrid : Cell 4 4 4 → Option ℚ :=
  fun c => if c ∈ lowCells then some 0 else some 1

/-- The model that reproduces `plateauGrid` exactly. -/
def plateauModel : Cell 4 4 4 → ℚ := fun c => (plateauGrid c).getD 0

/-- A concrete fully observed 4 by 4 by 4 grid with every value `-2`.  Its
sigma estimate is `-2`; every central cell qualifies for contribution 1
(`-2 < 0.5 * -2`), yet the contribution-1 denominator is identically zero. -/
def constNegGrid : Cell 4 4 4 → Option ℚ := fun _ => some (-2)

/-- The model that reproduces `constNegGrid` exactly. -/
def constNegModel : Cell 4 4 4 → ℚ := fun _ => -2

/-- Embeds `azimuths = np.linspace(0.0, np.pi, n_angles)` with `n_angles = 24`
(curvefit.py line 263).  Numpy's default `endpoint=True` includes the stop
value, so the points are `0 + i * ((pi - 0) / (24 - 1))`.  The float
constant `np.pi` is abstracted as the parameter `piV`; the theorems
instantiate it with the real number `Real.pi`.  The definition is generic
in the field so that it remains executable code. -/
def azimuths {α : Type} [LinearOrderedField α] (piV : α) (i : Fin 24) : α :=
  0 + (i.val : α) * ((piV - 0) / ((24 : α) - 1))

/-- Embeds the value returned by `find_dominant_direction` (curvefit.py
lines 241-242 and 273-280): `0.0` when the collapsed map is entirely
missing or all candidate integrals are NaN (`degenerate`), and otherwise
`azimuths[i_min]` for the arg-min index `i_min` chosen from the 24
candidate integrals (the interpolation and integration are external
capabilities, abstracted into the choice of `i_min`). -/
def find_dominant_direction_result {α : Type} [LinearOrderedField α]
    (piV : α) (degenerate : Bool) (i_min : Fin 24) : α :=
  if degenerate then 0 else azimuths piV i_min

end Vargrest

namespace Vargrest

/-- C1: evaluation of the even-`nz` middle-slice blend at the failing input.
At a cell where both middle slices are non-missing, with values `1` and `3`,
the code produces `4` (the plain sum: the "weight" `w` is a numpy boolean,
so `~isnan(v0) + ~isnan(v1)` is logical OR and `w * v01` multiplies by `1`),
whereas the claimed per-cell weighted average is `2`. -/
theorem c1_even_blend_is_sum_not_average :
    collapse_even_cell (some 1) (some 3) = some 4 ∧
    collapse_even_cell_avg (some 1) (some 3) = some 2 ∧
    (some (4 : ℚ) : Option ℚ) ≠ some 2 := by
  refine ⟨?_, ?_, ?_⟩
  · simp only [collapse_even_cell, Option.getD_some, Option.isSome_some, Bool.or_self,
      if_true, Option.some.injEq]
    norm_num
  · simp only [collapse_even_cell_avg, Option.some.injEq]
    norm_num
  · simp only [ne_eq, Option.some.injEq]
    norm_num

/-- C5: evaluation of the sampling coordinate at the failing input.  On an
axis of even length `n = 2` the code builds `np.linspace(-1, 1, 2)`, whose
index `1` is the coordinate `1`, whereas the claimed formula
`i - ⌊n / 2⌋` gives `0`.  (The code's spacing on an even axis is
`n / (n - 1)`, not `1`.) -/
theorem c5_even_axis_coordinate_eval :
    coordAxis 2 (1 : Fin 2) = 1 ∧
    spec_coordinate 2 (1 : Fin 2) = 0 ∧
    (1 : ℚ) ≠ 0 := by
  refine ⟨?_, ?_, ?_⟩
  · norm_num [coordAxis, linspace]
  · norm_num [spec_coordinate]
  · norm_num

/-- C7: the per-scope quality aggregation is exactly
`1 - (c1 * 0.75 + min(c2, 0.25))` for all real contribution values, and the
two spec examples evaluate to `0.75`, showing the cap on contribution 2 is
effective. -/
theorem c7_aggregate_formula_and_cap :
    (∀ t s : ℚ, aggregate_contributions t s = 1 - (t * 0.75 + min s 0.25)) ∧
    aggregate_contributions 0.2 0.1 = 0.75 ∧
    aggregate_contributions 0.0 0.4 = 0.75 := by
  refine ⟨fun t s => ?_, ?_, ?_⟩ <;> norm_num [aggregate_contributions]

/-- Value of the candidate azimuths: `linspace(0, pi, 24)` places index `i`
at `i * pi / 23`. -/
theorem azimuths_eq (piV : ℝ) (i : Fin 24) :
    azimuths piV i = (i.val : ℝ) * piV / 23 := by
  simp only [azimuths]
  ring

/-- C2 counterexample: the last of the 24 candidate azimuths is exactly
`pi`, which does not lie in the half-open interval from `0` to `pi` the
claim asserts the fan spans — `np.linspace(0.0, np.pi, 24)` includes its
endpoint. -/
theorem c2_last_candidate_is_pi :
    azimuths Real.pi ⟨23, by norm_num⟩ = Real.pi ∧
    azimuths Real.pi ⟨23, by norm_num⟩ ∉ Set.Ico 0 Real.pi := by
  have h : azimuths Real.pi ⟨23, by norm_num⟩ = Real.pi := by
    rw [azimuths_eq]
    show (23 : ℕ) * Real.pi / 23 = Real.pi
    push_cast
    field_simp
  refine ⟨h, ?_⟩
  rw [h]
  simp [Set.mem_Ico]

/-- C2 amended: the dominant-direction procedure evaluates exactly 24
equally spaced candidate azimuths `i * pi / 23` spanning the closed
interval from `0` to `pi` (both endpoints included, spacing `pi / 23`),
and the returned azimuth — `0.0` on a degenerate map, otherwise the
arg-min candidate — lies in that closed interval. -/
theorem c2_candidates_span_closed_interval :
    (∀ i : Fin 24, azimuths Real.pi i = (i.val : ℝ) * Real.pi / 23) ∧
    azimuths Real.pi ⟨0, by norm_num⟩ = 0 ∧
    azimuths Real.pi ⟨23, by norm_num⟩ = Real.pi ∧
    (∀ i : Fin 24, azimuths Real.pi i ∈ Set.Icc 0 Real.pi) ∧
    (∀ (b : Bool) (i : Fin 24),
      find_dominant_direction_result Real.pi b i ∈ Set.Icc 0 Real.pi) := by
  have hmem : ∀ i : Fin 24, azimuths Real.pi i ∈ Set.Icc 0 Real.pi := by
    intro i
    rw [azimuths_eq]
    constructor
    · positivity
    · have hi : (i.val : ℝ) ≤ 23 := by
        exact_mod_cast Nat.le_of_lt_succ i.isLt
      have h23 : (i.val : ℝ) * Real.pi / 23 ≤ 23 * Real.pi / 23 := by
        gcongr
      calc (i.val : ℝ) * Real.pi / 23 ≤ 23 * Real.pi / 23 := h23
        _ = Real.pi := by
            field_simp
  refine ⟨azimuths_eq Real.pi, ?_, ?_, hmem, ?_⟩
  · rw [azimuths_eq]
    norm_num
  · rw [azimuths_eq]
    show ((23 : ℕ) : ℝ) * Real.pi / 23 = Real.pi
    push_cast
    field_simp
  · intro b i
    cases b with
    | false => simpa [find_dominant_direction_result] using hmem i
    | true =>
        simp only [find_dominant_direction_result, if_true]
        exact ⟨le_refl _, Real.pi_pos.le⟩

/-- C8: the order-2 weight transform fixes `0`, `0.5` and `1`, is
monotonically non-decreasing on the unit interval, and maps the unit
interval into itself. -/
theorem c8_transform_fixed_points_monotone_range :
    transform_array 0 2 = 0 ∧
    transform_array 0.5 2 = 0.5 ∧
    transform_array 1 2 = 1 ∧
    (∀ a b : ℚ, 0 ≤ a → a ≤ b → b ≤ 1 →
      transform_array a 2 ≤ transform_array b 2) ∧
    (∀ w : ℚ, 0 ≤ w → w ≤ 1 →
      0 ≤ transform_array w 2 ∧ transform_array w 2 ≤ 1) := by
  refine ⟨by norm_num [transform_array], by norm_num [transform_array],
    by norm_num [transform_array], ?_, ?_⟩
  · intro a b ha hab hb1
    by_cases hA : a < 1/2
    · by_cases hB : b < 1/2
      · rw [transform_array, transform_array, if_pos (by norm_num [hA]),
          if_pos (by norm_num [hB])]
        norm_num
        nlinarith
      · rw [transform_array, transform_array, if_pos (by norm_num [hA]),
          if_neg (by norm_num [hB])]
        norm_num
        nlinarith
    · have hB : ¬ b < 1/2 := fun hb => hA (lt_of_le_of_lt hab hb)
      rw [transform_array, transform_array, if_neg (by norm_num [hA]),
        if_neg (by norm_num [hB])]
      norm_num
      nlinarith
  · intro w h0 h1
    by_cases hw : w < 1/2
    · rw [transform_array, if_pos (by norm_num [hw])]
      norm_num
      constructor <;> nlinarith
    · rw [transform_array, if_neg (by norm_num [hw])]
      norm_num
      constructor <;> nlinarith

/-- C10: two invocations of the fit entry point that differ only in the
`resolution` and `counts` arguments return the identical parameter vector
and the identical quality measure — neither argument is read on the
fit/quality path. -/
theorem c10_fit_independent_of_resolution_counts {nx ny nz : ℕ}
    (expFn : ℚ → ℚ)
    (solver : List (ℚ × ℚ × ℚ) → List ℚ → Option (List (Option ℚ)) →
      List ℚ → List ℚ × List ℚ → List ℚ)
    (func : ℚ × ℚ × ℚ → List ℚ → ℚ)
    (array : Cell nx ny nz → Option ℚ)
    (res1 res2 : ℚ × ℚ × ℚ)
    (counts1 counts2 : Cell nx ny nz → ℚ)
    (par_guess : List ℚ) (bounds : List ℚ × List ℚ) (sigma_wt : Option ℚ) :
    fit_3d_field expFn solver func array res1 counts1 par_guess bounds sigma_wt =
      fit_3d_field expFn solver func array res2 counts2 par_guess bounds sigma_wt := rfl

/-- C6: on an all-missing observation grid the fit entry point returns the
NaN parameter vector shaped like the guess (hence of the guess's length)
together with the all-NaN quality measure, and does so for every solver —
the least-squares solver is never invoked. -/
theorem c6_all_missing_short_circuit {nx ny nz : ℕ}
    (expFn : ℚ → ℚ)
    (solver : List (ℚ × ℚ × ℚ) → List ℚ → Option (List (Option ℚ)) →
      List ℚ → List ℚ × List ℚ → List ℚ)
    (func : ℚ × ℚ × ℚ → List ℚ → ℚ)
    (array : Cell nx ny nz → Option ℚ)
    (resolution : ℚ × ℚ × ℚ) (counts : Cell nx ny nz → ℚ)
    (par_guess : List ℚ) (bounds : List ℚ × List ℚ) (sigma_wt : Option ℚ)
    (h : ∀ c, array c = none) :
    fit_3d_field expFn solver func array resolution counts par_guess bounds sigma_wt =
      (par_guess.map fun _ => none, QualityMeasure.nan) ∧
    (fit_3d_field expFn solver func array resolution counts par_guess bounds
      sigma_wt).1.length = par_guess.length := by
  have hall : ((ravelCells nx ny nz).map array).all Option.isNone = true := by
    rw [List.all_eq_true]
    intro x hx
    rw [List.mem_map] at hx
    obtain ⟨c, -, rfl⟩ := hx
    rw [h c]
    rfl
  have heq : fit_3d_field expFn solver func array resolution counts par_guess
      bounds sigma_wt = (par_guess.map fun _ => none, QualityMeasure.nan) := by
    simp only [fit_3d_field, hall, if_true]
  refine ⟨heq, ?_⟩
  rw [heq]
  simp

/-- C6 witness: the short-circuit theorem applied to a concrete 1 by 1 by 1
all-missing grid with a two-parameter guess; the all-missing hypothesis is
discharged definitionally. -/
theorem c6_all_missing_short_circuit_witness :
    (∀ c : Cell 1 1 1, (fun _ : Cell 1 1 1 => (none : Option ℚ)) c = none) ∧
    fit_3d_field (fun q => q) (fun _ _ _ _ _ => []) (fun _ _ => 0)
      (fun _ : Cell 1 1 1 => (none : Option ℚ)) (1, 1, 1) (fun _ => 0) [0, 0]
      ([0, 0], [1, 1]) none = ([none, none], QualityMeasure.nan) :=
  ⟨fun _ => rfl,
    (c6_all_missing_short_circuit (fun q => q) (fun _ _ _ _ _ => []) (fun _ _ => 0)
      (fun _ : Cell 1 1 1 => (none : Option ℚ)) (1, 1, 1) (fun _ => 0) [0, 0]
      ([0, 0], [1, 1]) none (fun _ => rfl)).1⟩

/-- C4 amended: if every observation in the grid is missing then all four
quality fields are NaN.  (Only this direction of the claimed equivalence
holds; see the counterexample for the failure of the converse.) -/
theorem c4_all_missing_gives_nan_quality {nx ny nz : ℕ}
    (expFn : ℚ → ℚ)
    (solver : List (ℚ × ℚ × ℚ) → List ℚ → Option (List (Option ℚ)) →
      List ℚ → List ℚ × List ℚ → List ℚ)
    (func : ℚ × ℚ × ℚ → List ℚ → ℚ)
    (array : Cell nx ny nz → Option ℚ)
    (resolution : ℚ × ℚ × ℚ) (counts : Cell nx ny nz → ℚ)
    (par_guess : List ℚ) (bounds : List ℚ × List ℚ) (sigma_wt : Option ℚ)
    (h : ∀ c, array c = none) :
    (fit_3d_field expFn solver func array resolution counts par_guess bounds
      sigma_wt).2 = QualityMeasure.nan := by
  have hall : ((ravelCells nx ny nz).map array).all Option.isNone = true := by
    rw [List.all_eq_true]
    intro x hx
    rw [List.mem_map] at hx
    obtain ⟨c, -, rfl⟩ := hx
    rw [h c]
    rfl
  simp only [fit_3d_field, hall, if_true]

/-- C4 witness: the all-missing direction applied to a concrete 2 by 1 by 1
all-missing grid. -/
theorem c4_all_missing_gives_nan_quality_witness :
    (∀ c : Cell 2 1 1, (fun _ : Cell 2 1 1 => (none : Option ℚ)) c = none) ∧
    (fit_3d_field (fun q => q) (fun _ _ _ _ _ => [0]) (fun _ _ => 0)
      (fun _ : Cell 2 1 1 => (none : Option ℚ)) (1, 1, 1) (fun _ => 0) [0]
      ([0], [1]) none).2 = QualityMeasure.nan :=
  ⟨fun _ => rfl,
    c4_all_missing_gives_nan_quality (fun q => q) (fun _ _ _ _ _ => [0]) (fun _ _ => 0)
      (fun _ : Cell 2 1 1 => (none : Option ℚ)) (1, 1, 1) (fun _ => 0) [0]
      ([0], [1]) none (fun _ => rfl)⟩

/-- C4 counterexample: a 1 by 1 by 1 grid whose single observation is
present (value `1`) still yields the all-NaN quality measure, because the
contribution-1 center region of an axis shorter than 4 cells is empty and
`0.0 / 0.0` is NaN — refuting the claimed "all four NaN iff every
observation missing" equivalence. -/
theorem c4_nonmissing_grid_all_nan_quality :
    oneCellGrid (0, 0, 0) = some 1 ∧
    (fit_3d_field (fun q => q) (fun _ _ _ _ _ => [1]) (fun _ _ => 1) oneCellGrid
      (1, 1, 1) (fun _ => 1) [1] ([0], [2]) none).2 = QualityMeasure.nan := by
  exact ⟨rfl, by decide⟩

/-- C3 counterexample: on a 1 by 1 by 2 grid of present observations with
sigma estimate `1`, every contribution-1 restricted cell set is empty
(the center region is empty), and the full-scope contribution-1 value is
NaN (`0.0 / 0.0`), not the claimed `0`. -/
theorem c3_empty_set_gives_nan :
    (ravelCells 1 1 2).filter (find_contrib1_cells lineGrid lineGrid 1) = [] ∧
    (calculate_quality_contribution_1 lineGrid lineGrid 1).full = none ∧
    (calculate_quality_contribution_1 lineGrid lineGrid 1).full ≠ some 0 := by
  refine ⟨by decide, by decide, by decide⟩

/-- C3 amended: for every scope of the quality computation, if the
restricted cell set of contribution 1 is empty then both the numerator and
the denominator sums are zero and the contribution-1 value of every scope
is NaN (`0.0 / 0.0`) — not the claimed `0`. -/
theorem c3_empty_set_contribution_nan {nx ny nz : ℕ}
    (emp par : Cell nx ny nz → Option ℚ) (σ : ℚ) (index : Cell nx ny nz → Bool)
    (h : (ravelCells nx ny nz).filter index = []) :
    calculate_quality_measure emp par σ index contribution_1 = QualityMeasure.nan := by
  have hidx : ∀ c ∈ ravelCells nx ny nz, ¬ index c = true :=
    List.filter_eq_nil_iff.mp h
  have hsub : ∀ p : Cell nx ny nz → Bool,
      (ravelCells nx ny nz).filter (fun c => p c && index c) = [] := by
    intro p
    rw [List.filter_eq_nil_iff]
    intro c hc
    simp only [Bool.and_eq_true, not_and]
    intro _
    exact hidx c hc
  rw [calculate_quality_measure, h, hsub lineX, hsub lineY, hsub lineZ]
  simp [contribution_1, fdiv, QualityMeasure.nan]

/-- C3 witness: the empty-restricted-set theorem applied to a concrete
1 by 1 by 1 grid with an everywhere-false index mask. -/
theorem c3_empty_set_contribution_nan_witness :
    (ravelCells 1 1 1).filter (fun _ : Cell 1 1 1 => false) = [] ∧
    calculate_quality_measure (fun _ : Cell 1 1 1 => some 1) (fun _ => some 1) 1
      (fun _ => false) contribution_1 = QualityMeasure.nan :=
  ⟨by decide,
    c3_empty_set_contribution_nan (fun _ : Cell 1 1 1 => some 1) (fun _ => some 1) 1
      (fun _ => false) (by decide)⟩

/-- C8 witness: the transform theorem applied at concrete inputs,
discharging the ordering hypotheses at `a = 1/4`, `b = 3/4` and the range
hypotheses at `w = 1/4`. -/
theorem c8_transform_witness :
    transform_array (1/4 : ℚ) 2 ≤ transform_array (3/4 : ℚ) 2 ∧
    (0 ≤ transform_array (1/4 : ℚ) 2 ∧ transform_array (1/4 : ℚ) 2 ≤ 1) := by
  refine ⟨?_, ?_⟩
  · exact c8_transform_fixed_points_monotone_range.2.2.2.1 (1/4) (3/4)
      (by norm_num) (by norm_num) (by norm_num)
  · exact c8_transform_fixed_points_monotone_range.2.2.2.2 (1/4)
      (by norm_num) (by norm_num)

/-- Unfolding of `calculate_quality_1` when the sigma estimate is a real
value: the rest of the computation runs with that sigma. -/
theorem calculate_quality_1_median_some {nx ny nz : ℕ}
    (emp : Cell nx ny nz → Option ℚ) (model : Cell nx ny nz → ℚ) (σ : ℚ)
    (hmed : median ((ravelCells nx ny nz).filterMap emp) = some σ) :
    calculate_quality_1 emp model =
      quality_from_sigma emp (fun c => (emp c).map fun _ => model c) σ := by
  unfold calculate_quality_1
  rw [hmed]

/-- The `getD` of a list whose elements are all equal to `a` is `a` at any
in-range index. -/
theorem getD_eq_of_forall_eq (l : List ℚ) (a : ℚ) (i : ℕ) (hi : i < l.length)
    (h : ∀ x ∈ l, x = a) : l.getD i 0 = a := by
  rw [List.getD_eq_getElem l 0 hi]
  exact h _ (List.getElem_mem hi)

/-- The median of a nonempty constant list is its constant value. -/
theorem median_of_const (l : List ℚ) (a : ℚ) (hne : l ≠ [])
    (h : ∀ x ∈ l, x = a) : median l = some a := by
  have hperm : List.Perm (List.insertionSort (· ≤ ·) l) l :=
    List.perm_insertionSort _ l
  have hsa : ∀ x ∈ List.insertionSort (· ≤ ·) l, x = a := fun x hx =>
    h x (hperm.mem_iff.mp hx)
  have hlen : (List.insertionSort (· ≤ ·) l).length = l.length :=
    List.length_insertionSort _ l
  have hpos : 0 < (List.insertionSort (· ≤ ·) l).length := by
    rw [hlen]
    exact List.length_pos.mpr hne
  have h0 : (List.insertionSort (· ≤ ·) l).length ≠ 0 := hpos.ne'
  unfold median
  rw [if_neg h0]
  by_cases hodd : (List.insertionSort (· ≤ ·) l).length % 2 = 1
  · rw [if_pos hodd]
    rw [getD_eq_of_forall_eq _ a _ (by omega) hsa]
  · rw [if_neg hodd]
    rw [getD_eq_of_forall_eq _ a _ (by omega) hsa,
      getD_eq_of_forall_eq _ a _ (by omega) hsa]
    congr 1
    ring

/-- If a model reproduces the empirical values exactly, contribution 1
over a nonempty restricted cell set is `0 / positive = 0` whenever the
sigma estimate is positive: each qualifying cell has empirical value below
half the sigma estimate, so its baseline deviation is strictly positive. -/
theorem contribution_1_exact_pos {nx ny nz : ℕ} (emp : Cell nx ny nz → Option ℚ)
    (σ : ℚ) (hσ : 0 < σ) (l : List (Cell nx ny nz)) (hne : l ≠ [])
    (hmask : ∀ c ∈ l, find_contrib1_cells emp emp σ c = true) :
    contribution_1 emp emp σ l = some 0 := by
  have hnum : (l.map fun c => |(emp c).getD 0 - (emp c).getD 0|).sum = 0 := by
    apply List.sum_eq_zero
    intro x hx
    rw [List.mem_map] at hx
    obtain ⟨c, -, rfl⟩ := hx
    simp
  have hden : 0 < (l.map fun c => |(emp c).getD 0 - σ|).sum := by
    apply List.sum_pos
    · intro x hx
      rw [List.mem_map] at hx
      obtain ⟨c, hc, rfl⟩ := hx
      have hm := hmask c hc
      rw [find_contrib1_cells] at hm
      simp only [Bool.and_eq_true] at hm
      obtain ⟨⟨⟨-, -⟩, hlt⟩, -⟩ := hm
      cases hec : emp c with
      | none => rw [hec] at hlt; simp [ltOpt] at hlt
      | some v =>
          rw [hec] at hlt
          simp only [ltOpt, decide_eq_true_eq] at hlt
          simp only [Option.getD_some]
          have hvσ : v < σ := by nlinarith
          exact abs_pos.mpr (sub_ne_zero.mpr (ne_of_lt hvσ))
    · intro h0
      rw [List.map_eq_nil_iff] at h0
      exact hne h0
  rw [contribution_1, hnum, fdiv, if_neg (ne_of_gt hden)]
  rw [zero_div]

/-- If a model reproduces the empirical values exactly, contribution 2
over a nonempty cell set is `median(0) / sigma = 0` whenever the sigma
estimate is nonzero. -/
theorem contribution_2_exact {nx ny nz : ℕ} (emp : Cell nx ny nz → Option ℚ)
    (σ : ℚ) (hσ : σ ≠ 0) (l : List (Cell nx ny nz)) (hne : l ≠ []) :
    contribution_2 emp emp σ l = some 0 := by
  have hmed : median (l.map fun c => |(emp c).getD 0 - (emp c).getD 0|) = some 0 := by
    apply median_of_const
    · rw [ne_eq, List.map_eq_nil_iff]
      exact hne
    · intro x hx
      rw [List.mem_map] at hx
      obtain ⟨c, -, rfl⟩ := hx
      simp
  unfold contribution_2
  rw [hmed]
  show fdiv 0 σ = some 0
  rw [fdiv, if_neg hσ, zero_div]

/-- A filter by a weaker predicate of a list is nonempty whenever the
filter by the stronger one is. -/
theorem filter_ne_nil_mono {α : Type} (l : List α) (p q : α → Bool)
    (himp : ∀ a, p a = true → q a = true) (hne : l.filter p ≠ []) :
    l.filter q ≠ [] := by
  obtain ⟨x, hx⟩ := List.exists_mem_of_ne_nil _ hne
  have hx' := List.mem_filter.mp hx
  exact List.ne_nil_of_mem (List.mem_filter.mpr ⟨hx'.1, himp x hx'.2⟩)

/-- Aggregating two zero contributions gives the perfect quality `1`. -/
theorem aggregateOpt_zero_zero : aggregateOpt (some 0) (some 0) = some 1 := by
  rw [aggregateOpt]
  show some (aggregate_contributions 0 0) = some 1
  rw [aggregate_contributions]
  norm_num

/-- When the model equals the empirical grid, the sigma estimate is
positive, and every scope's contribution-1 restricted set is nonempty, all
four aggregated quality fields are exactly `1`. -/
theorem quality_from_sigma_exact {nx ny nz : ℕ}
    (emp : Cell nx ny nz → Option ℚ) (σ : ℚ) (hσ : 0 < σ)
    (hful : (ravelCells nx ny nz).filter (find_contrib1_cells emp emp σ) ≠ [])
    (hlx : (ravelCells nx ny nz).filter
      (fun c => lineX c && find_contrib1_cells emp emp σ c) ≠ [])
    (hly : (ravelCells nx ny nz).filter
      (fun c => lineY c && find_contrib1_cells emp emp σ c) ≠ [])
    (hlz : (ravelCells nx ny nz).filter
      (fun c => lineZ c && find_contrib1_cells emp emp σ c) ≠ []) :
    quality_from_sigma emp emp σ = ⟨some 1, some 1, some 1, some 1⟩ := by
  have hmask_imp : ∀ c, find_contrib1_cells emp emp σ c = true →
      find_contrib2_cells emp c = true := by
    intro c hc
    rw [find_contrib1_cells] at hc
    simp only [Bool.and_eq_true] at hc
    exact hc.1.1.1
  have hline_imp : ∀ (line : Cell nx ny nz → Bool) c,
      (line c && find_contrib1_cells emp emp σ c) = true →
      (line c && find_contrib2_cells emp c) = true := by
    intro line c hc
    rw [Bool.and_eq_true] at hc ⊢
    exact ⟨hc.1, hmask_imp c hc.2⟩
  have hc1f := contribution_1_exact_pos emp σ hσ _ hful
    (fun c hc => (List.mem_filter.mp hc).2)
  have hand : ∀ (line : Cell nx ny nz → Bool) c,
      (line c && find_contrib1_cells emp emp σ c) = true →
      find_contrib1_cells emp emp σ c = true := by
    intro line c hc
    rw [Bool.and_eq_true] at hc
    exact hc.2
  have hc1x := contribution_1_exact_pos emp σ hσ _ hlx
    (fun c hc => hand lineX c (List.mem_filter.mp hc).2)
  have hc1y := contribution_1_exact_pos emp σ hσ _ hly
    (fun c hc => hand lineY c (List.mem_filter.mp hc).2)
  have hc1z := contribution_1_exact_pos emp σ hσ _ hlz
    (fun c hc => hand lineZ c (List.mem_filter.mp hc).2)
  have hc2f := contribution_2_exact emp σ (ne_of_gt hσ) _
    (filter_ne_nil_mono _ _ _ hmask_imp hful)
  have hc2x := contribution_2_exact emp σ (ne_of_gt hσ) _
    (filter_ne_nil_mono _ _ _ (hline_imp lineX) hlx)
  have hc2y := contribution_2_exact emp σ (ne_of_gt hσ) _
    (filter_ne_nil_mono _ _ _ (hline_imp lineY) hly)
  have hc2z := contribution_2_exact emp σ (ne_of_gt hσ) _
    (filter_ne_nil_mono _ _ _ (hline_imp lineZ) hlz)
  simp only [quality_from_sigma, calculate_quality_contribution_1,
    calculate_quality_contribution_2, calculate_quality_measure]
  rw [hc1f, hc1x, hc1y, hc1z, hc2f, hc2x, hc2y, hc2z]
  simp only [aggregateOpt_zero_zero]

/-- C9 amended: if the fitted model reproduces every non-missing
observation exactly, the sigma estimate (median of the non-missing
observations) is positive, and each scope has at least one qualifying cell
in its contribution-1 restricted set, then all four quality fields equal
`1`.  (The positivity of the sigma estimate is the amendment: with sigma
estimate `0` the contribution-2 ratio is `0.0 / 0.0` and the fields are
NaN, see the counterexample.) -/
theorem c9_exact_fit_quality_one {nx ny nz : ℕ}
    (emp : Cell nx ny nz → Option ℚ) (model : Cell nx ny nz → ℚ) (σ : ℚ)
    (hfit : ∀ c, (emp c).map (fun _ => model c) = emp c)
    (hmed : median ((ravelCells nx ny nz).filterMap emp) = some σ)
    (hσ : 0 < σ)
    (hful : (ravelCells nx ny nz).filter (find_contrib1_cells emp emp σ) ≠ [])
    (hlx : (ravelCells nx ny nz).filter
      (fun c => lineX c && find_contrib1_cells emp emp σ c) ≠ [])
    (hly : (ravelCells nx ny nz).filter
      (fun c => lineY c && find_contrib1_cells emp emp σ c) ≠ [])
    (hlz : (ravelCells nx ny nz).filter
      (fun c => lineZ c && find_contrib1_cells emp emp σ c) ≠ []) :
    calculate_quality_1 emp model = ⟨some 1, some 1, some 1, some 1⟩ := by
  have hpar : (fun c => (emp c).map fun _ => model c) = emp := funext hfit
  rw [calculate_quality_1_median_some emp model σ hmed, hpar]
  exact quality_from_sigma_exact emp σ hσ hful hlx hly hlz

set_option maxRecDepth 4000

/-- C9 witness: the exact-fit theorem applied to the concrete
`plateauGrid` (sigma estimate `1`, qualifying cells on every scope line),
discharging every hypothesis there. -/
theorem c9_exact_fit_quality_one_witness :
    (0 : ℚ) < 1 ∧
    calculate_quality_1 plateauGrid plateauModel =
      ⟨some 1, some 1, some 1, some 1⟩ := by
  have hL : (ravelCells 4 4 4).filterMap plateauGrid =
      List.replicate 26 1 ++ 0 :: List.replicate 11 1 ++ 0 :: List.replicate 2 1
        ++ 0 :: 0 :: List.replicate 21 1 := by decide
  have hperm : List.Perm
      (List.replicate 26 (1 : ℚ) ++ 0 :: List.replicate 11 1 ++ 0 :: List.replicate 2 1
        ++ 0 :: 0 :: List.replicate 21 1)
      (List.replicate 4 (0 : ℚ) ++ List.replicate 60 1) := by decide
  have hsorted : List.Sorted (· ≤ ·)
      (List.replicate 4 (0 : ℚ) ++ List.replicate 60 1) := by decide
  have hsort_eq : List.insertionSort (· ≤ ·)
      (List.replicate 26 (1 : ℚ) ++ 0 :: List.replicate 11 1 ++ 0 :: List.replicate 2 1
        ++ 0 :: 0 :: List.replicate 21 1) =
      List.replicate 4 (0 : ℚ) ++ List.replicate 60 1 :=
    List.eq_of_perm_of_sorted ((List.perm_insertionSort _ _).trans hperm)
      (List.sorted_insertionSort _ _) hsorted
  have hlen : (List.replicate 4 (0 : ℚ) ++ List.replicate 60 1).length = 64 := by
    decide
  have hg31 : (List.replicate 4 (0 : ℚ) ++ List.replicate 60 1).getD 31 0 = 1 := by
    decide
  have hg32 : (List.replicate 4 (0 : ℚ) ++ List.replicate 60 1).getD 32 0 = 1 := by
    decide
  have hmed : median ((ravelCells 4 4 4).filterMap plateauGrid) = some 1 := by
    rw [hL]
    unfold median
    rw [hsort_eq, hlen]
    rw [if_neg (by norm_num : ¬ (64 : ℕ) = 0),
      if_neg (by norm_num : ¬ (64 : ℕ) % 2 = 1)]
    rw [(by norm_num : (64 : ℕ) / 2 - 1 = 31), (by norm_num : (64 : ℕ) / 2 = 32)]
    rw [hg31, hg32]
    norm_num
  have hmask : ∀ c ∈ lowCells, find_contrib1_cells plateauGrid plateauGrid 1 c = true := by
    intro c hc
    have h0 : plateauGrid c = some 0 := by
      rw [plateauGrid]
      simp only [hc, if_true]
    rw [find_contrib1_cells, h0]
    have hcenter : (centerAxis 4 c.1.val && centerAxis 4 c.2.1.val &&
        centerAxis 4 c.2.2.val) = true := by
      fin_cases hc <;> decide
    rw [hcenter]
    have hlt : ltOpt (some 0) (0.5 * 1) = true := by
      rw [ltOpt]
      norm_num
    rw [hlt]
    rfl
  have hm1 := hmask (1, 2, 2) (by decide)
  have hm2 := hmask (2, 1, 2) (by decide)
  have hm3 := hmask (2, 2, 1) (by decide)
  have hm4 := hmask (2, 2, 2) (by decide)
  refine ⟨by norm_num, ?_⟩
  refine c9_exact_fit_quality_one plateauGrid plateauModel 1 (by decide) hmed
    (by norm_num) ?_ ?_ ?_ ?_
  · exact List.ne_nil_of_mem (List.mem_filter.mpr ⟨by decide, hm4⟩)
  · refine List.ne_nil_of_mem (List.mem_filter.mpr ⟨(by decide :
      ((1 : Fin 4), (2 : Fin 4), (2 : Fin 4)) ∈ ravelCells 4 4 4), ?_⟩)
    rw [Bool.and_eq_true]
    exact ⟨by decide, hm1⟩
  · refine List.ne_nil_of_mem (List.mem_filter.mpr ⟨(by decide :
      ((2 : Fin 4), (1 : Fin 4), (2 : Fin 4)) ∈ ravelCells 4 4 4), ?_⟩)
    rw [Bool.and_eq_true]
    exact ⟨by decide, hm2⟩
  · refine List.ne_nil_of_mem (List.mem_filter.mpr ⟨(by decide :
      ((2 : Fin 4), (2 : Fin 4), (1 : Fin 4)) ∈ ravelCells 4 4 4), ?_⟩)
    rw [Bool.and_eq_true]
    exact ⟨by decide, hm3⟩

/-- C9 counterexample: on the fully observed grid `constNegGrid` (every
value `-2`) the model reproduces every observation exactly and each scope
has qualifying contribution-1 cells, yet the full-scope quality is NaN
rather than `1` — the sigma estimate is `-2`, the contribution-1
denominator is identically zero, and `0.0 / 0.0` is NaN.  This refutes
the claim as stated (it holds only for a positive sigma estimate). -/
theorem c9_exact_fit_with_qualifying_cells_not_one :
    (∀ c : Cell 4 4 4, (constNegGrid c).map (fun _ => constNegModel c) = constNegGrid c) ∧
    constNegGrid (0, 0, 0) ≠ none ∧
    median ((ravelCells 4 4 4).filterMap constNegGrid) = some (-2) ∧
    (ravelCells 4 4 4).filter (find_contrib1_cells constNegGrid constNegGrid (-2)) ≠ [] ∧
    (ravelCells 4 4 4).filter
      (fun c => lineX c && find_contrib1_cells constNegGrid constNegGrid (-2) c) ≠ [] ∧
    (ravelCells 4 4 4).filter
      (fun c => lineY c && find_contrib1_cells constNegGrid constNegGrid (-2) c) ≠ [] ∧
    (ravelCells 4 4 4).filter
      (fun c => lineZ c && find_contrib1_cells constNegGrid constNegGrid (-2) c) ≠ [] ∧
    (calculate_quality_1 constNegGrid constNegModel).full ≠ some 1 := by
  have hmed : median ((ravelCells 4 4 4).filterMap constNegGrid) = some (-2) := by
    rw [(by decide : (ravelCells 4 4 4).filterMap constNegGrid =
      List.replicate 64 (-2 : ℚ))]
    exact median_of_const _ _ (by decide) (fun x hx => List.eq_of_mem_replicate hx)
  have hmask : ∀ c ∈ lowCells, find_contrib1_cells constNegGrid constNegGrid (-2) c = true := by
    intro c hc
    rw [find_contrib1_cells]
    have hcenter : (centerAxis 4 c.1.val && centerAxis 4 c.2.1.val &&
        centerAxis 4 c.2.2.val) = true := by
      fin_cases hc <;> decide
    rw [constNegGrid, hcenter]
    have hlt : ltOpt (some (-2)) (0.5 * (-2)) = true := by
      rw [ltOpt]
      norm_num
    rw [hlt]
    rfl
  have hfull_nan : (calculate_quality_1 constNegGrid constNegModel).full = none := by
    have hpar : (fun c => (constNegGrid c).map fun _ => constNegModel c) = constNegGrid :=
      funext fun _ => rfl
    rw [calculate_quality_1_median_some constNegGrid constNegModel (-2) hmed, hpar]
    simp only [quality_from_sigma, calculate_quality_contribution_1,
      calculate_quality_contribution_2, calculate_quality_measure]
    have hden : (((ravelCells 4 4 4).filter
        (find_contrib1_cells constNegGrid constNegGrid (-2))).map
        (fun c => |(constNegGrid c).getD 0 - (-2)|)).sum = 0 := by
      apply List.sum_eq_zero
      intro x hx
      rw [List.mem_map] at hx
      obtain ⟨c, -, rfl⟩ := hx
      norm_num [constNegGrid]
    rw [contribution_1, hden, fdiv, if_pos rfl]
    rfl
  refine ⟨fun c => rfl, by simp [constNegGrid], hmed, ?_, ?_, ?_, ?_, ?_⟩
  · exact List.ne_nil_of_mem (List.mem_filter.mpr
      ⟨by decide, hmask (2, 2, 2) (by decide)⟩)
  · refine List.ne_nil_of_mem (List.mem_filter.mpr ⟨(by decide :
      ((1 : Fin 4), (2 : Fin 4), (2 : Fin 4)) ∈ ravelCells 4 4 4), ?_⟩)
    rw [Bool.and_eq_true]
    exact ⟨by decide, hmask (1, 2, 2) (by decide)⟩
  · refine List.ne_nil_of_mem (List.mem_filter.mpr ⟨(by decide :
      ((2 : Fin 4), (1 : Fin 4), (2 : Fin 4)) ∈ ravelCells 4 4 4), ?_⟩)
    rw [Bool.and_eq_true]
    exact ⟨by decide, hmask (2, 1, 2) (by decide)⟩
  · refine List.ne_nil_of_mem (List.mem_filter.mpr ⟨(by decide :
      ((2 : Fin 4), (2 : Fin 4), (1 : Fin 4)) ∈ ravelCells 4 4 4), ?_⟩)
    rw [Bool.and_eq_true]
    exact ⟨by decide, hmask (2, 2, 1) (by decide)⟩
  · rw [hfull_nan]
    simp

end Vargrest
